import Mathlib

/-!
Shallow embedding of the core of the `nebula` command-dispatch framework:
the usage/cooldown tracker, the inhibitor pipeline and subcommand
construction of `src/Command.ts`, the flat argument validator of
`src/Validator/index.ts`, and the array schema of
`src/validator/ArraySchema.ts`.

Machine integers of the source (JavaScript numbers used as millisecond
timestamps and bucket counts) are modelled as `Nat`; `Discord.Collection`
maps are modelled as association lists with unique keys maintained by a
replace-or-append `set`.
-/

namespace Nebula

/-! ### Usage tracker (`Command.ts`, `allowUsage` / `_sweep`) -/

/-- Embeds the `limit` options of a Command: `bucket` is the maximum number
of allowed runs inside a window, `time` is the window in milliseconds
(`0` disables limiting). The `scope` option only selects which id string is
used as the ledger key, so the key is passed directly to the operations. -/
structure LimitOptions where
  bucket : Nat
  time : Nat
  deriving Repr, DecidableEq

/-- Embeds one value of the `usage` collection: `(bucket, timestamp)`. -/
abbrev UsageEntry := Nat × Nat

/-- Embeds the `usage : Discord.Collection<string, [number, number]>` ledger
as an association list keyed by scope id. -/
abbrev UsageLedger := List (String × UsageEntry)

/-- Embeds `this.usage.get(id)`. -/
def getUsage : UsageLedger → String → Option UsageEntry
  | [], _ => none
  | (k, e) :: rest, id => if k = id then some e else getUsage rest id

/-- Embeds `this.usage.set(id, entry)`: replaces the entry at `id` if
present, appends otherwise. -/
def setUsage : UsageLedger → String → UsageEntry → UsageLedger
  | [], id, e => [(id, e)]
  | (k, w) :: rest, id, e =>
    if k = id then (id, e) :: rest else (k, w) :: setUsage rest id e

/-- Embeds the usage-tracking state of a Command instance: the `usage`
ledger together with whether the `_sweepInterval` timer is currently set
(`_sweepInterval != null`). -/
structure UsageState where
  usage : UsageLedger
  sweepInterval : Bool
  deriving Repr, DecidableEq

/-- The state of a freshly constructed Command: empty ledger, no timer. -/
def initialUsageState : UsageState := ⟨[], false⟩

/-- Embeds `Command.allowUsage` (Command.ts lines 377-405). Returns the
decision together with the updated state. `currTime` embeds `Date.now()`
and `id` the scope id chosen from the limit scope. -/
def allowUsage (limit : LimitOptions) (id : String) (currTime : Nat)
    (s : UsageState) : Bool × UsageState :=
  if limit.time = 0 then (true, s)
  else
    match getUsage s.usage id with
    | some (bucket, time) =>
      if limit.time < currTime - time then
        (true, { s with usage := setUsage s.usage id (1, currTime) })
      else if bucket = limit.bucket then (false, s)
      else (true, { s with usage := setUsage s.usage id (bucket + 1, currTime) })
    | none =>
      let s1 : UsageState := { s with usage := setUsage s.usage id (1, currTime) }
      if s1.sweepInterval then (true, s1)
      else (true, { s1 with sweepInterval := true })

/-- Embeds `Command._sweep` (Command.ts lines 407-417): removes every entry
whose age exceeds the limit window, then cancels the interval when the
ledger has become empty. -/
def sweepRun (limit : LimitOptions) (currTime : Nat) (s : UsageState) :
    UsageState :=
  let u := s.usage.filter (fun e => ¬ limit.time < currTime - e.2.2)
  if u.length = 0 then { usage := u, sweepInterval := false }
  else { s with usage := u }

/-! ### Inhibitor pipeline (`Command.ts`, `composeInhibitors`) -/

/-- Observable events of one `composeInhibitors` run: which gates were
evaluated and which notification hooks were invoked. -/
inductive Event
  | ranShouldDispatch
  | ranUsageGate
  | ranNSFWGate
  | ranPermGate
  | hookUsage
  | hookNSFW
  | hookPerm
  deriving Repr, DecidableEq

/-- Embeds the resolved `permission` options of a Command. -/
structure PermissionOptions where
  exact : Bool
  level : Nat
  deriving Repr, DecidableEq

/-- Embeds the external permission service interface consumed via
`this.addon.permissions`; the message argument is fixed for one run. -/
structure PermissionService where
  check : Nat → Bool
  checkExact : Nat → Bool

/-- Embeds the parts of a Command and its activating message that the
non-usage gates read. `shouldDispatch = none` models a subclass that does
not define the optional `shouldDispatch` hook. -/
structure CommandGates where
  shouldDispatch : Option Bool
  nsfw : Bool
  channelNsfw : Bool
  permission : PermissionOptions
  perms : PermissionService

/-- Embeds `Command.allowNSFW` (Command.ts lines 422-424). -/
def allowNSFW (c : CommandGates) : Bool := !c.nsfw || c.channelNsfw

/-- Embeds `Command.allowPerm` (Command.ts lines 430-437). -/
def allowPerm (c : CommandGates) : Bool :=
  if c.permission.exact then c.perms.checkExact c.permission.level
  else c.perms.check c.permission.level

/-- Trace contribution of the `shouldDispatch` hook: it is evaluated
exactly when the subclass defines it. -/
def sdTrace (c : CommandGates) : List Event :=
  match c.shouldDispatch with
  | some _ => [Event.ranShouldDispatch]
  | none => []

/-- Embeds `let shouldDispatch = true; if (this.shouldDispatch)
shouldDispatch = await this.shouldDispatch()`: the value of the optional
hook, defaulting to `true` when absent. -/
def sdValue (c : CommandGates) : Bool :=
  match c.shouldDispatch with
  | some b => b
  | none => true

/-- Embeds `Command.composeInhibitors` (Command.ts lines 276-308),
returning the decision, the trace of gate evaluations and hook
invocations, and the usage state after the run. -/
def composeInhibitors (c : CommandGates) (limit : LimitOptions)
    (id : String) (currTime : Nat) (s : UsageState) :
    Bool × List Event × UsageState :=
  if !sdValue c then (false, sdTrace c, s)
  else
    let (au, s1) := allowUsage limit id currTime s
    if !au then
      (false, sdTrace c ++ [Event.ranUsageGate, Event.hookUsage], s1)
    else if !allowNSFW c then
      (false, sdTrace c ++ [Event.ranUsageGate, Event.ranNSFWGate,
        Event.hookNSFW], s1)
    else if !allowPerm c then
      (false, sdTrace c ++ [Event.ranUsageGate, Event.ranNSFWGate,
        Event.ranPermGate, Event.hookPerm], s1)
    else
      (true, sdTrace c ++ [Event.ranUsageGate, Event.ranNSFWGate,
        Event.ranPermGate], s1)

/-! ### Command construction and subcommand instantiation
(`Command.ts`, constructor, lines 315-372) -/

/-- Embeds `NebulaError`: the configuration error type thrown by the
constructor. -/
structure NebulaError where
  message : String
  deriving Repr, DecidableEq

/-- Embeds a declared subcommand class (`Constructor<Command>`):
`extendsCommand` is `Subcommand.prototype instanceof Command`, and
`isSubcommand` is the `options.isSubcommand` flag an instance of the class
carries after construction. An instance is identified with its class data. -/
structure SubcommandClass where
  extendsCommand : Bool
  isSubcommand : Bool
  deriving Repr, DecidableEq

/-- Embeds the `subcommands.commands.map(...)` body of the constructor
(Command.ts lines 361-371). The class at list position `k` is given index
`i + k`; the first component records the indices of the classes on which a
constructor call (`new Subcommand(this.addon)`) is performed, in execution
order, up to the point where a `NebulaError` is thrown. -/
def instantiateSubcommands : List SubcommandClass → Nat →
    List Nat × Except NebulaError (List SubcommandClass)
  | [], _ => ([], Except.ok [])
  | cls :: rest, i =>
    if !cls.extendsCommand then
      ([], Except.error ⟨"subcommands must inherit the Command structure"⟩)
    else if !cls.isSubcommand then
      ([i], Except.error ⟨"subcommands must have isSubcommand set to true"⟩)
    else
      let (tr, res) := instantiateSubcommands rest (i + 1)
      (i :: i :: tr, res.map (fun l => cls :: l))

/-- Embeds the raw `limit` argument options, whose fields may be absent. -/
structure LimitOptionsIn where
  bucket : Option Nat
  time : Option Nat
  scope : Option String
  deriving Repr, DecidableEq

/-- Embeds the raw `permission` argument options. -/
structure PermissionOptionsIn where
  exact : Option Bool
  level : Option Nat
  deriving Repr, DecidableEq

/-- Embeds the `OptionalCommandOptions` argument of the constructor,
restricted to the fields the constructor inspects. -/
structure CommandOptionsIn where
  name : Option String
  limit : Option LimitOptionsIn
  subcommands : Option (List SubcommandClass)
  permission : Option PermissionOptionsIn
  deriving Repr, DecidableEq

/-- Embeds the post-construction data of a Command relevant to this
development: the merged limit options, the instantiated subcommands and
the initial usage state. -/
structure CommandData where
  limit : LimitOptions
  instantiatedSubcommands : List SubcommandClass
  usageState : UsageState
  deriving Repr, DecidableEq

/-- Embeds the merge with `defaultOptions` for the limit options
(`bucket` defaults to `1`, `time` to `0`). -/
def resolveLimit : Option LimitOptionsIn → LimitOptions
  | none => ⟨1, 0⟩
  | some l => ⟨l.bucket.getD 1, l.time.getD 0⟩

/-- Embeds the check `options.limit.scope != null &&
!limitScopes.includes(options.limit.scope)` on a possibly absent limit. -/
def limitScopeInvalid : Option LimitOptionsIn → Bool
  | some l =>
    match l.scope with
    | some s => !(s = "user" || s = "guild")
    | none => false
  | none => false

/-- Embeds the check `options.limit.bucket != null && options.limit.bucket
<= 0` (in the `Nat` embedding a non-positive number is `0`). -/
def limitBucketInvalid : Option LimitOptionsIn → Bool
  | some l => l.bucket = some 0
  | none => false

/-- Embeds the check `options.limit.time == null`. -/
def limitTimeMissing : Option LimitOptionsIn → Bool
  | some l => l.time = none
  | none => false

/-- Embeds the check `options.limit.time <= 0` (in the `Nat` embedding a
non-positive number is `0`). -/
def limitTimeInvalid : Option LimitOptionsIn → Bool
  | some l => l.time = some 0
  | none => false

/-- Embeds the check `options.permission != null &&
options.permission.level == null`. -/
def permissionLevelMissing : Option PermissionOptionsIn → Bool
  | some p => p.level = none
  | none => false

/-- Embeds the `Command` constructor (Command.ts lines 315-372): the
synchronous option checks in source order, the merge with the defaults,
and the eager instantiation of the declared subcommands. -/
def commandConstructor (options : CommandOptionsIn) :
    Except NebulaError CommandData :=
  if options.name = none then
    Except.error ⟨"The name of the command must be specified"⟩
  else if limitScopeInvalid options.limit then
    Except.error ⟨"The limit scope must be either user or guild"⟩
  else if limitBucketInvalid options.limit then
    Except.error ⟨"The limit bucket must be greater than 1"⟩
  else if limitTimeMissing options.limit then
    Except.error
      ⟨"The limit time must be specified when the limit options are specified"⟩
  else if limitTimeInvalid options.limit then
    Except.error ⟨"The limit must be greater than 0"⟩
  else if options.subcommands = some [] then
    Except.error
      ⟨"The commands for subcommands options must have at least a command"⟩
  else if permissionLevelMissing options.permission then
    Except.error
      ⟨"The permission level must be specified when permission options are specified"⟩
  else
    match (instantiateSubcommands (options.subcommands.getD []) 0).2 with
    | Except.error e => Except.error e
    | Except.ok subs =>
      Except.ok ⟨resolveLimit options.limit, subs, initialUsageState⟩

/-! ### Flat argument validator (`Validator/index.ts`) -/

/-- Embeds the `Primitives` union `string | number | boolean`. JavaScript
numbers are modelled as integers. -/
inductive Primitive
  | str (s : String)
  | num (n : Int)
  | bool (b : Bool)
  deriving Repr, DecidableEq

/-- Modelled from the spec: the `ValidationError` class is imported by
`Validator/index.ts` but its file is not part of the sources; §7 describes
a violation as a record with `value`, `field`, `type`, matching the
constructor call `new ValidationError(currValue, currKey, currValidator.type)`.
`value` is the raw token, absent when the token was `undefined`. -/
structure ValidationError where
  value : Option String
  key : String
  type : String
  deriving Repr, DecidableEq

/-- Embeds `ValueStoreEntry`. -/
structure ValueStoreEntry where
  value : Primitive
  type : String
  rawValue : String
  deriving Repr, DecidableEq

/-- Embeds the `ValueStore` object as an association list. -/
abbrev ValueStore := List (String × ValueStoreEntry)

/-- Embeds `valueStore[key]` lookup (`undefined` becomes `none`). -/
def getStore : ValueStore → String → Option ValueStoreEntry
  | [], _ => none
  | (k, e) :: rest, key => if k = key then some e else getStore rest key

/-- Embeds `valueStore[key] = entry`. -/
def setStore : ValueStore → String → ValueStoreEntry → ValueStore
  | [], key, e => [(key, e)]
  | (k, w) :: rest, key, e =>
    if k = key then (key, e) :: rest else (k, w) :: setStore rest key e

/-- Embeds `ValidationRuleArguments` (the `message` field is not modelled:
the modelled rules do not consume it). -/
structure RuleArgs where
  value : Primitive
  rawValue : Option String
  key : String
  ref : String → Option ValueStoreEntry

/-- Embeds a field validator (`StringValidator | NumberValidator |
BooleanValidator`) as consumed by `Validator.validate`: its `type` tag, its
`flags.optional`, its `coerce` hook (`null` on failure becomes `none`) and
its named rule chain. -/
structure FieldValidator where
  type : String
  optional : Bool
  coerce : String → Option Primitive
  rules : List (String × (RuleArgs → Bool))

/-- Embeds the per-field outcome stored in the returned object: either a
non-empty violation list or a value (`none` models `null`). -/
inductive FieldResult
  | errs (e : List ValidationError)
  | val (v : Option Primitive)
  deriving Repr, DecidableEq

/-- Embeds the `ValidatorOptions`. -/
structure ValidatorOptions where
  abortEarly : Bool
  coerce : Bool
  deriving Repr, DecidableEq

/-- Embeds the first loop of `Validator.validate` (lines 148-176): walks
the schema entries in declaration order with index `i`; a missing token or
failed coercion returns the single-key object early (`Sum.inl`), otherwise
the populated value store is produced (`Sum.inr`). -/
def coercePass (values : List String) :
    List (String × FieldValidator) → Nat → ValueStore →
    Sum (String × FieldResult) ValueStore
  | [], _, store => Sum.inr store
  | (key, v) :: rest, i, store =>
    match values.get? i with
    | none =>
      if !v.optional then
        Sum.inl (key, FieldResult.errs [⟨none, key, v.type⟩])
      else Sum.inl (key, FieldResult.val none)
    | some raw =>
      match v.coerce raw with
      | none => Sum.inl (key, FieldResult.errs [⟨some raw, key, v.type⟩])
      | some c =>
        coercePass values rest (i + 1) (setStore store key ⟨c, v.type, raw⟩)

/-- Embeds one field's rule loop (lines 186-201). Modelled from the spec
for the error content: the rule-pushing `addRule` wrapper lives in the
validator base class which is not part of the sources; §4.1 step 4 says a
failing rule appends a violation tagged `<type>.<ruleName>`. Returns the
accumulated scratch `errs` and whether the loop returned early
(`!result && abortEarly`). -/
def runRuleChain (vtype : String) (args : RuleArgs) (abortEarly : Bool) :
    List (String × (RuleArgs → Bool)) → List ValidationError →
    List ValidationError × Bool
  | [], errs => (errs, false)
  | (name, pred) :: rest, errs =>
    let result := pred args
    let errs1 :=
      if result then errs
      else errs ++ [⟨args.rawValue, args.key, vtype ++ "." ++ name⟩]
    if !result && abortEarly then (errs1, true)
    else runRuleChain vtype args abortEarly rest errs1

/-- Embeds the second loop of `Validator.validate` (lines 180-208): runs
each field's rule chain against the shared value store; an abort-early rule
failure returns only that field's entry, discarding the results assembled
so far, exactly as the source's `return` does. -/
def rulePass (opts : ValidatorOptions) (values : List String)
    (store : ValueStore) :
    List (String × FieldValidator) → Nat → List (String × FieldResult) →
    List (String × FieldResult)
  | [], _, results => results
  | (key, v) :: rest, i, results =>
    let entry := (getStore store key).getD ⟨Primitive.str "", "", ""⟩
    let rawValue := values.get? i
    let args : RuleArgs := ⟨entry.value, rawValue, key, getStore store⟩
    match runRuleChain v.type args opts.abortEarly v.rules [] with
    | (errs, true) => [(key, FieldResult.errs errs)]
    | (errs, false) =>
      let r :=
        if errs.length ≠ 0 then FieldResult.errs errs
        else if opts.coerce then FieldResult.val (some entry.value)
        else FieldResult.val (some (Primitive.str (rawValue.getD "")))
      rulePass opts values store rest (i + 1) (results ++ [(key, r)])

/-- Embeds `Validator.validate(message, values, schema)` (lines 140-211):
the coercion pass over the schema entries, then the rule pass. The result
object is modelled as an ordered key-result list. -/
def Validator.validate (opts : ValidatorOptions) (values : List String)
    (schema : List (String × FieldValidator)) : List (String × FieldResult) :=
  match coercePass values schema 0 [] with
  | Sum.inl single => [single]
  | Sum.inr store => rulePass opts values store schema 0 []

/-! ### Array schema (`validator/ArraySchema.ts`) -/

/-- Embeds the value universe handled by the schema family of the
`validator` directory, whose `validate` receives arbitrary values. -/
inductive JSValue
  | num (n : Int)
  | str (s : String)
  | bool (b : Bool)
  | arr (xs : List JSValue)
  deriving Repr

/-- Embeds one entry of a schema result's `errors` list: the violation tag
and the path it is attributed to. -/
structure SchemaError where
  type : String
  path : Option String
  deriving Repr, DecidableEq

/-- Embeds the `ValidationResults<T>` record of the `validator` directory:
`value` (`null` becomes `none`), `errors`, `pass`. -/
structure SchemaResult where
  value : Option JSValue
  errors : List SchemaError
  pass : Bool
  deriving Repr

/-- Modelled from the spec: the abstract `Schema` base class of the
`validator` directory is not part of the sources (only `ArraySchema.ts`
is); §3 and §4.1 describe it as a typed container with a `type` tag, an
`optional` flag, a coercion hook, a runtime type predicate `check`, and a
named rule chain. -/
structure SchemaBase where
  type : String
  optional : Bool
  coerce : JSValue → Option JSValue
  check : JSValue → Bool
  rules : List (String × (JSValue → Bool))

/-- Modelled from the spec: §4.1 step 4 — the rule chain runs in
declaration order; a failure appends a violation tagged `<type>.<ruleName>`
at the current path and, under `shouldAbortEarly`, returns immediately. -/
def runSchemaRules (stype : String) (v : JSValue) (abortEarly : Bool)
    (path : Option String) :
    List (String × (JSValue → Bool)) → List SchemaError
  | [] => []
  | (name, pred) :: rest =>
    if pred v then runSchemaRules stype v abortEarly path rest
    else if abortEarly then [⟨stype ++ "." ++ name, path⟩]
    else ⟨stype ++ "." ++ name, path⟩ ::
      runSchemaRules stype v abortEarly path rest

/-- Modelled from the spec: `Schema.validate(rawValue, options)` of §4.1,
steps 1-5 — missing value handled by `optional`/`required`, then coercion
(failure: one violation of kind `<type>`), then the type check (failure
behaves like coercion failure), then the rule chain, then the result with
`pass` iff no errors. -/
def SchemaBase.validate (s : SchemaBase) (value : Option JSValue)
    (shouldAbortEarly : Bool) (path : Option String) : SchemaResult :=
  match value with
  | none =>
    if s.optional then ⟨none, [], true⟩
    else ⟨none, [⟨"required", path⟩], false⟩
  | some v =>
    match s.coerce v with
    | none => ⟨none, [⟨s.type, path⟩], false⟩
    | some c =>
      if !s.check c then ⟨none, [⟨s.type, path⟩], false⟩
      else
        let errs := runSchemaRules s.type c shouldAbortEarly path s.rules
        ⟨some c, errs, errs.isEmpty⟩

/-- Embeds `Array.isArray`. -/
def JSValue.isArr : JSValue → Bool
  | JSValue.arr _ => true
  | _ => false

/-- Embeds an `ArraySchema<T>` instance: the data of its inherited base
(with `type` fixed to `"array"` and `check` to `Array.isArray` by the
constructor) and the optional inner item schema `this._schema`. -/
structure ArraySchemaT where
  optional : Bool
  rules : List (String × (JSValue → Bool))
  inner : Option SchemaBase

/-- The inherited base-schema view of an `ArraySchema` instance. -/
def ArraySchemaT.base (a : ArraySchemaT) : SchemaBase :=
  ⟨"array", a.optional, some, JSValue.isArr, a.rules⟩

/-- Embeds the per-index path built at ArraySchema.ts line 124:
`i.toString()` at top level, `` `path.i` `` when nested. -/
def childPath (path : Option String) (i : Nat) : String :=
  match path with
  | none => toString i
  | some p => p ++ "." ++ toString i

/-- Embeds the element loop of `ArraySchema.validate` (lines 121-135):
validates each element against the inner schema at its child path,
accumulates `errors`, records failure in `pass`, and with
`shouldAbortEarly` returns at the first failing element. -/
def validateItems (inner : SchemaBase) (abortEarly : Bool)
    (path : Option String) :
    List JSValue → Nat → List SchemaError → Bool →
    List SchemaError × Bool
  | [], _, errs, pass => (errs, pass)
  | x :: rest, i, errs, pass =>
    let r := inner.validate (some x) abortEarly (some (childPath path i))
    let errs1 := errs ++ r.errors
    if !r.pass then
      if abortEarly then (errs1, false)
      else validateItems inner abortEarly path rest (i + 1) errs1 false
    else validateItems inner abortEarly path rest (i + 1) errs1 pass

/-- Embeds `ArraySchema.validate` (ArraySchema.ts lines 104-142): runs the
base validation, returns it unchanged when there is no inner schema, the
base failed, or the base value is not an array; otherwise validates every
element, returning `value := none` on failure and the base value on
success. (`Validator.setValue` and the `parent` option only feed cross-field
ref resolution, which the modelled rules do not consume.) -/
def ArraySchemaT.validate (a : ArraySchemaT) (value : Option JSValue)
    (shouldAbortEarly : Bool) (path : Option String) : SchemaResult :=
  let baseResult := a.base.validate value shouldAbortEarly path
  match a.inner with
  | none => baseResult
  | some inner =>
    if !baseResult.pass then baseResult
    else
      match baseResult.value with
      | some (JSValue.arr xs) =>
        let ep := validateItems inner shouldAbortEarly path xs 0 [] true
        if !ep.2 then ⟨none, ep.1, false⟩
        else ⟨some (JSValue.arr xs), ep.1, true⟩
      | _ => baseResult

/-! ### Operation sequences over the usage tracker -/

/-- One operation on the usage ledger: an `allowUsage` call for a scope id
at a time, or a `_sweep` tick at a time. -/
inductive UsageOp
  | allow (id : String) (t : Nat)
  | sweep (t : Nat)
  deriving Repr, DecidableEq

/-- Runs a sequence of tracker operations from a state. -/
def runOps (limit : LimitOptions) : List UsageOp → UsageState → UsageState
  | [], s => s
  | UsageOp.allow id t :: rest, s =>
    runOps limit rest (allowUsage limit id t s).2
  | UsageOp.sweep t :: rest, s => runOps limit rest (sweepRun limit t s)

/-- The bucket invariant of §3: every ledger entry's bucket count lies
between `1` and the configured maximum. -/
def bucketInv (maxB : Nat) (u : UsageLedger) : Prop :=
  ∀ e ∈ u, 1 ≤ e.2.1 ∧ e.2.1 ≤ maxB

/-! ### Association-list lemmas -/

theorem mem_setUsage {u : UsageLedger} {id : String} {e : UsageEntry}
    {x : String × UsageEntry} (hx : x ∈ setUsage u id e) :
    x = (id, e) ∨ x ∈ u := by
  induction u with
  | nil => simpa [setUsage] using hx
  | cons hd tl ih =>
    obtain ⟨k, w⟩ := hd
    by_cases hk : k = id
    · simp only [setUsage, if_pos hk] at hx
      rcases List.mem_cons.mp hx with h | h
      · exact Or.inl h
      · exact Or.inr (List.mem_cons_of_mem _ h)
    · simp only [setUsage, if_neg hk] at hx
      rcases List.mem_cons.mp hx with h | h
      · exact Or.inr (h ▸ List.mem_cons_self _ _)
      · rcases ih h with h' | h'
        · exact Or.inl h'
        · exact Or.inr (List.mem_cons_of_mem _ h')

theorem getUsage_mem {u : UsageLedger} {id : String} {e : UsageEntry}
    (h : getUsage u id = some e) : (id, e) ∈ u := by
  induction u with
  | nil => simp [getUsage] at h
  | cons hd tl ih =>
    obtain ⟨k, w⟩ := hd
    by_cases hk : k = id
    · simp only [getUsage, if_pos hk] at h
      subst hk
      cases h
      exact List.mem_cons_self _ _
    · simp only [getUsage, if_neg hk] at h
      exact List.mem_cons_of_mem _ (ih h)

theorem getUsage_setUsage_self (u : UsageLedger) (id : String)
    (e : UsageEntry) : getUsage (setUsage u id e) id = some e := by
  induction u with
  | nil => simp [setUsage, getUsage]
  | cons hd tl ih =>
    obtain ⟨k, w⟩ := hd
    by_cases hk : k = id
    · simp [setUsage, if_pos hk, getUsage]
    · simp [setUsage, if_neg hk, getUsage, hk, ih]

/-! ### Step lemmas for the tracker invariant -/

theorem bucketInv_setUsage {maxB : Nat} {u : UsageLedger} {id : String}
    {e : UsageEntry} (hu : bucketInv maxB u) (he : 1 ≤ e.1 ∧ e.1 ≤ maxB) :
    bucketInv maxB (setUsage u id e) := by
  intro x hx
  rcases mem_setUsage hx with h | h
  · subst h; exact he
  · exact hu x h

theorem bucketInv_allowUsage {limit : LimitOptions} {id : String}
    {t : Nat} {s : UsageState} (hmax : 1 ≤ limit.bucket)
    (hs : bucketInv limit.bucket s.usage) :
    bucketInv limit.bucket ((allowUsage limit id t s).2).usage := by
  unfold allowUsage
  by_cases h0 : limit.time = 0
  · simpa [h0] using hs
  · simp only [if_neg h0]
    rcases hg : getUsage s.usage id with _ | ⟨bucket, time⟩
    · simp only [hg]
      by_cases hsw : s.sweepInterval <;>
        · simp only [hsw]
          exact bucketInv_setUsage hs ⟨le_refl 1, hmax⟩
    · simp only [hg]
      by_cases hexp : limit.time < t - time
      · simp only [if_pos hexp]
        exact bucketInv_setUsage hs ⟨le_refl 1, hmax⟩
      · simp only [if_neg hexp]
        by_cases hb : bucket = limit.bucket
        · simpa [hb] using hs
        · simp only [if_neg hb]
          have hmem := getUsage_mem hg
          have hbnd := hs _ hmem
          exact bucketInv_setUsage hs
            ⟨Nat.le_succ_of_le hbnd.1,
              Nat.succ_le_of_lt (lt_of_le_of_ne hbnd.2 hb)⟩

theorem bucketInv_sweepRun {limit : LimitOptions} {t : Nat}
    {s : UsageState} (hs : bucketInv limit.bucket s.usage) :
    bucketInv limit.bucket ((sweepRun limit t s).usage) := by
  unfold sweepRun
  intro x hx
  by_cases hlen :
      (s.usage.filter (fun e => ¬ limit.time < t - e.2.2)).length = 0 <;>
    · simp only [hlen] at hx
      simp only [if_pos, if_neg, hlen] at *
      exact hs x (List.mem_of_mem_filter hx)

/-- Structural description of a denied `allowUsage` call: denial happens
exactly in the in-window full-bucket branch, and leaves the state
untouched. -/
theorem allowUsage_denied_eq {limit : LimitOptions} {id : String} {t : Nat}
    {s : UsageState} (h : (allowUsage limit id t s).1 = false) :
    (allowUsage limit id t s).2 = s := by
  unfold allowUsage at h ⊢
  by_cases h0 : limit.time = 0
  · simp [h0] at h
  · simp only [if_neg h0] at h ⊢
    rcases hg : getUsage s.usage id with _ | ⟨bucket, time⟩
    · simp only [hg] at h
      by_cases hsw : s.sweepInterval <;> simp [hsw] at h
    · simp only [hg] at h ⊢
      by_cases hexp : limit.time < t - time
      · simp [if_pos hexp] at h
      · simp only [if_neg hexp] at h ⊢
        by_cases hb : bucket = limit.bucket
        · simp [hb]
        · simp [if_neg hb] at h

theorem bucketInv_runOps {limit : LimitOptions} (hmax : 1 ≤ limit.bucket)
    (ops : List UsageOp) :
    ∀ s : UsageState, bucketInv limit.bucket s.usage →
      bucketInv limit.bucket (runOps limit ops s).usage := by
  induction ops with
  | nil => intro s hs; exact hs
  | cons op rest ih =>
    intro s hs
    cases op with
    | allow id t => exact ih _ (bucketInv_allowUsage hmax hs)
    | sweep t => exact ih _ (bucketInv_sweepRun hs)

/-! ### Concrete scenario of §8: bucket max 2, window 5000ms -/

/-- The limit options of the §8 usage-tracker scenario. -/
def c1Limit : LimitOptions := ⟨2, 5000⟩

/-- State after the scenario call at `t = 0`. -/
def c1s1 : UsageState := (allowUsage c1Limit "u" 0 initialUsageState).2

/-- State after the scenario call at `t = 1`. -/
def c1s2 : UsageState := (allowUsage c1Limit "u" 1 c1s1).2

/-- State after the scenario call at `t = 2`. -/
def c1s3 : UsageState := (allowUsage c1Limit "u" 2 c1s2).2

/-- Claim C1 counterexample: in the max = 2, window = 5000ms scenario the
call at `t = 5001` returns deny, not allow as claimed, and the increment at
`t = 1` stored the entry `(2, 1)`, not `(2, 0)`: the increment transition
does not preserve the entry's original timestamp. -/
theorem c1_counterexample :
    (allowUsage c1Limit "u" 5001 c1s3).1 = false
    ∧ getUsage c1s2.usage "u" = some (2, 1)
    ∧ getUsage c1s2.usage "u" ≠ some (2, 0) := by decide

/-- Claim C1 (amended): on an un-elapsed window with a non-full bucket,
`allowUsage` increments the entry to `(bucket + 1, currTime)` — updating
the timestamp to the current time; consequently in the max = 2,
window = 5000ms scenario the calls at t = 0, 1, 2 return allow, allow,
deny, the call at t = 5001 also returns deny (the t = 1 increment
refreshed the timestamp to 1 and an age of exactly the window does not
expire), and a call at t = 5002 returns allow with the entry reset to
bucket 1. -/
theorem c1_usage_window_amended (limit : LimitOptions) (id : String)
    (bucket time currTime : Nat) (s : UsageState)
    (h0 : limit.time ≠ 0)
    (hg : getUsage s.usage id = some (bucket, time))
    (hwin : ¬ limit.time < currTime - time)
    (hb : bucket ≠ limit.bucket) :
    allowUsage limit id currTime s =
      (true, { s with usage := setUsage s.usage id (bucket + 1, currTime) })
    ∧ ((allowUsage c1Limit "u" 0 initialUsageState).1,
        (allowUsage c1Limit "u" 1 c1s1).1,
        (allowUsage c1Limit "u" 2 c1s2).1,
        (allowUsage c1Limit "u" 5001 c1s3).1) = (true, true, false, false)
    ∧ allowUsage c1Limit "u" 5002 c1s3 = (true, ⟨[("u", (1, 5002))], true⟩) := by
  refine ⟨?_, by decide, by decide⟩
  unfold allowUsage
  simp only [if_neg h0, hg, if_neg hwin, if_neg hb]

/-- Witness for `c1_usage_window_amended` at the scenario's t = 1 call. -/
theorem c1_usage_window_amended_witness :
    allowUsage c1Limit "u" 1 c1s1 =
      (true, { c1s1 with usage := setUsage c1s1.usage "u" (1 + 1, 1) })
    ∧ ((allowUsage c1Limit "u" 0 initialUsageState).1,
        (allowUsage c1Limit "u" 1 c1s1).1,
        (allowUsage c1Limit "u" 2 c1s2).1,
        (allowUsage c1Limit "u" 5001 c1s3).1) = (true, true, false, false)
    ∧ allowUsage c1Limit "u" 5002 c1s3 = (true, ⟨[("u", (1, 5002))], true⟩) :=
  c1_usage_window_amended c1Limit "u" 1 0 1 c1s1 (by decide) (by decide)
    (by decide) (by decide)

/-- Claim C8: across every sequence of `allowUsage` and sweep operations
from the initial state, every ledger entry's bucket lies in
`[1, limit.bucket]`; and a denied call leaves the state unchanged. -/
theorem c8_bucket_invariant (limit : LimitOptions) (id : String) (t : Nat)
    (s : UsageState) (ops : List UsageOp)
    (hmax : 1 ≤ limit.bucket)
    (hdeny : (allowUsage limit id t s).1 = false) :
    bucketInv limit.bucket (runOps limit ops initialUsageState).usage
    ∧ (allowUsage limit id t s).2 = s :=
  ⟨bucketInv_runOps hmax ops initialUsageState (by intro e he; cases he),
    allowUsage_denied_eq hdeny⟩

/-- Witness for `c8_bucket_invariant`: a concrete run and a concrete
denied call on a full in-window bucket. -/
theorem c8_bucket_invariant_witness :
    bucketInv (2 : Nat)
      (runOps ⟨2, 5000⟩
        [UsageOp.allow "u" 0, UsageOp.allow "u" 1, UsageOp.allow "v" 2,
          UsageOp.sweep 9000] initialUsageState).usage
    ∧ (allowUsage ⟨2, 5000⟩ "u" 1 ⟨[("u", (2, 0))], true⟩).2 =
        ⟨[("u", (2, 0))], true⟩ :=
  c8_bucket_invariant ⟨2, 5000⟩ "u" 1 ⟨[("u", (2, 0))], true⟩
    [UsageOp.allow "u" 0, UsageOp.allow "u" 1, UsageOp.allow "v" 2,
      UsageOp.sweep 9000] (by decide) (by decide)

/-- Claim C9: a sweep pass keeps exactly the entries whose age does not
exceed the window; a sweep that empties the ledger cancels the interval; a
sweep never starts the interval; an `allowUsage` call that creates a new
entry (under a non-zero window) starts the interval and allows; and an
`allowUsage` call on an already-present scope leaves the interval flag
unchanged. -/
theorem c9_sweep_lifecycle (limit : LimitOptions) (t t2 t3 : Nat)
    (s s2 s3 : UsageState) (e : String × UsageEntry) (id id2 : String)
    (h2 : (sweepRun limit t s2).usage = [])
    (h3 : s3.sweepInterval = false)
    (h4a : getUsage s.usage id = none) (h4b : limit.time ≠ 0)
    (h5 : getUsage s.usage id2 ≠ none) :
    (e ∈ (sweepRun limit t s).usage ↔
      e ∈ s.usage ∧ ¬ limit.time < t - e.2.2)
    ∧ (sweepRun limit t s2).sweepInterval = false
    ∧ (sweepRun limit t3 s3).sweepInterval = false
    ∧ ((allowUsage limit id t2 s).2.sweepInterval = true
        ∧ (allowUsage limit id t2 s).1 = true)
    ∧ (allowUsage limit id2 t2 s).2.sweepInterval = s.sweepInterval := by
  refine ⟨?_, ?_, ?_, ?_, ?_⟩
  · unfold sweepRun
    by_cases hlen :
        (s.usage.filter (fun x => ¬ limit.time < t - x.2.2)).length = 0 <;>
      · simp only [hlen, if_pos, if_neg]
        simp [List.mem_filter]
  · simp only [sweepRun] at h2 ⊢
    by_cases hlen :
        (s2.usage.filter (fun x => ¬ limit.time < t - x.2.2)).length = 0
    · rw [if_pos hlen]
    · rw [if_neg hlen] at h2 ⊢
      exact absurd (by simpa using congrArg List.length h2) hlen
  · unfold sweepRun
    by_cases hlen :
        (s3.usage.filter (fun x => ¬ limit.time < t3 - x.2.2)).length = 0 <;>
      simp [hlen, h3]
  · unfold allowUsage
    simp only [if_neg h4b, h4a]
    by_cases hsw : s.sweepInterval <;> simp [hsw]
  · unfold allowUsage
    by_cases h0 : limit.time = 0
    · simp [h0]
    · simp only [if_neg h0]
      rcases hg : getUsage s.usage id2 with _ | ⟨bucket, time⟩
      · exact absurd hg h5
      · by_cases hexp : limit.time < t2 - time
        · simp [hexp]
        · by_cases hb : bucket = limit.bucket <;> simp [hexp, hb]

/-- Witness for `c9_sweep_lifecycle` on concrete states: one live and one
expired entry, a fully expired second state, a timer-off third state, a
fresh scope id and an already-present one. -/
theorem c9_sweep_lifecycle_witness :
    (("a", ((1 : Nat), (0 : Nat))) ∈
        (sweepRun ⟨1, 10⟩ 100 ⟨[("a", (1, 0)), ("v", (1, 95))], true⟩).usage ↔
      ("a", ((1 : Nat), (0 : Nat))) ∈
          (⟨[("a", (1, 0)), ("v", (1, 95))], true⟩ : UsageState).usage
        ∧ ¬ (10 : Nat) < 100 - 0)
    ∧ (sweepRun ⟨1, 10⟩ 100 ⟨[("b", (1, 0))], true⟩).sweepInterval = false
    ∧ (sweepRun ⟨1, 10⟩ 3 ⟨[("b", (1, 0))], false⟩).sweepInterval = false
    ∧ ((allowUsage ⟨1, 10⟩ "w" 100
          ⟨[("a", (1, 0)), ("v", (1, 95))], true⟩).2.sweepInterval = true
        ∧ (allowUsage ⟨1, 10⟩ "w" 100
            ⟨[("a", (1, 0)), ("v", (1, 95))], true⟩).1 = true)
    ∧ (allowUsage ⟨1, 10⟩ "v" 100
          ⟨[("a", (1, 0)), ("v", (1, 95))], true⟩).2.sweepInterval =
        (⟨[("a", (1, 0)), ("v", (1, 95))], true⟩ : UsageState).sweepInterval :=
  c9_sweep_lifecycle ⟨1, 10⟩ 100 100 3 ⟨[("a", (1, 0)), ("v", (1, 95))], true⟩
    ⟨[("b", (1, 0))], true⟩ ⟨[("b", (1, 0))], false⟩ ("a", (1, 0)) "w" "v"
    (by decide) (by decide) (by decide) (by decide) (by decide)

theorem sdValue_true {c : CommandGates} (h : c.shouldDispatch ≠ some false) :
    sdValue c = true := by
  unfold sdValue
  rcases hsd : c.shouldDispatch with _ | b
  · rfl
  · cases b
    · exact absurd hsd h
    · rfl

/-- Claim C4: the inhibitors run in the fixed order `shouldDispatch`,
usage, NSFW, permission; the first failing gate returns `false`, fires
only its own notification hook, and stops the pipeline. In particular a
`shouldDispatch` that resolves to `false` produces the trace
`[ranShouldDispatch]`: no usage, NSFW or permission hook ever fires. -/
theorem c4_inhibitor_order (limit : LimitOptions) (id : String) (t : Nat)
    (sDeny sAllow : UsageState) (cSD cU cN cP cOK : CommandGates)
    (h1 : cSD.shouldDispatch = some false)
    (h2sd : cU.shouldDispatch ≠ some false)
    (h2u : (allowUsage limit id t sDeny).1 = false)
    (h3sd : cN.shouldDispatch ≠ some false)
    (h3u : (allowUsage limit id t sAllow).1 = true)
    (h3n : allowNSFW cN = false)
    (h4sd : cP.shouldDispatch ≠ some false)
    (h4u : (allowUsage limit id t sAllow).1 = true)
    (h4n : allowNSFW cP = true)
    (h4p : allowPerm cP = false)
    (h5sd : cOK.shouldDispatch ≠ some false)
    (h5n : allowNSFW cOK = true)
    (h5p : allowPerm cOK = true) :
    composeInhibitors cSD limit id t sDeny =
      (false, [Event.ranShouldDispatch], sDeny)
    ∧ composeInhibitors cU limit id t sDeny =
        (false, sdTrace cU ++ [Event.ranUsageGate, Event.hookUsage],
          (allowUsage limit id t sDeny).2)
    ∧ composeInhibitors cN limit id t sAllow =
        (false, sdTrace cN ++ [Event.ranUsageGate, Event.ranNSFWGate,
          Event.hookNSFW], (allowUsage limit id t sAllow).2)
    ∧ composeInhibitors cP limit id t sAllow =
        (false, sdTrace cP ++ [Event.ranUsageGate, Event.ranNSFWGate,
          Event.ranPermGate, Event.hookPerm], (allowUsage limit id t sAllow).2)
    ∧ composeInhibitors cOK limit id t sAllow =
        (true, sdTrace cOK ++ [Event.ranUsageGate, Event.ranNSFWGate,
          Event.ranPermGate], (allowUsage limit id t sAllow).2) := by
  refine ⟨?_, ?_, ?_, ?_, ?_⟩
  · unfold composeInhibitors sdValue sdTrace
    simp [h1]
  · unfold composeInhibitors
    rw [sdValue_true h2sd]
    simp [h2u]
  · unfold composeInhibitors
    rw [sdValue_true h3sd]
    simp [h3u, h3n]
  · unfold composeInhibitors
    rw [sdValue_true h4sd]
    simp [h4u, h4n, h4p]
  · unfold composeInhibitors
    rw [sdValue_true h5sd]
    simp [h3u, h5n, h5p]

/-- Witness for `c4_inhibitor_order`: concrete gate configurations, a full
in-window ledger for the denying case and a fresh ledger for the allowing
cases. -/
theorem c4_inhibitor_order_witness :
    composeInhibitors ⟨some false, false, false, ⟨false, 0⟩,
        ⟨fun _ => true, fun _ => true⟩⟩ ⟨1, 10⟩ "u" 1 ⟨[("u", (1, 0))], true⟩ =
      (false, [Event.ranShouldDispatch], ⟨[("u", (1, 0))], true⟩)
    ∧ composeInhibitors ⟨none, false, false, ⟨false, 0⟩,
          ⟨fun _ => true, fun _ => true⟩⟩ ⟨1, 10⟩ "u" 1
          ⟨[("u", (1, 0))], true⟩ =
        (false, sdTrace ⟨none, false, false, ⟨false, 0⟩,
            ⟨fun _ => true, fun _ => true⟩⟩ ++
          [Event.ranUsageGate, Event.hookUsage],
          (allowUsage ⟨1, 10⟩ "u" 1 ⟨[("u", (1, 0))], true⟩).2)
    ∧ composeInhibitors ⟨some true, true, false, ⟨false, 0⟩,
          ⟨fun _ => true, fun _ => true⟩⟩ ⟨1, 10⟩ "u" 1 initialUsageState =
        (false, sdTrace ⟨some true, true, false, ⟨false, 0⟩,
            ⟨fun _ => true, fun _ => true⟩⟩ ++
          [Event.ranUsageGate, Event.ranNSFWGate, Event.hookNSFW],
          (allowUsage ⟨1, 10⟩ "u" 1 initialUsageState).2)
    ∧ composeInhibitors ⟨some true, false, false, ⟨false, 0⟩,
          ⟨fun _ => false, fun _ => false⟩⟩ ⟨1, 10⟩ "u" 1 initialUsageState =
        (false, sdTrace ⟨some true, false, false, ⟨false, 0⟩,
            ⟨fun _ => false, fun _ => false⟩⟩ ++
          [Event.ranUsageGate, Event.ranNSFWGate, Event.ranPermGate,
            Event.hookPerm],
          (allowUsage ⟨1, 10⟩ "u" 1 initialUsageState).2)
    ∧ composeInhibitors ⟨some true, false, false, ⟨false, 0⟩,
          ⟨fun _ => true, fun _ => true⟩⟩ ⟨1, 10⟩ "u" 1 initialUsageState =
        (true, sdTrace ⟨some true, false, false, ⟨false, 0⟩,
            ⟨fun _ => true, fun _ => true⟩⟩ ++
          [Event.ranUsageGate, Event.ranNSFWGate, Event.ranPermGate],
          (allowUsage ⟨1, 10⟩ "u" 1 initialUsageState).2) :=
  c4_inhibitor_order ⟨1, 10⟩ "u" 1 ⟨[("u", (1, 0))], true⟩ initialUsageState
    ⟨some false, false, false, ⟨false, 0⟩, ⟨fun _ => true, fun _ => true⟩⟩
    ⟨none, false, false, ⟨false, 0⟩, ⟨fun _ => true, fun _ => true⟩⟩
    ⟨some true, true, false, ⟨false, 0⟩, ⟨fun _ => true, fun _ => true⟩⟩
    ⟨some true, false, false, ⟨false, 0⟩, ⟨fun _ => false, fun _ => false⟩⟩
    ⟨some true, false, false, ⟨false, 0⟩, ⟨fun _ => true, fun _ => true⟩⟩
    (by decide) (by decide) (by decide) (by decide) (by decide) (by decide)
    (by decide) (by decide) (by decide) (by decide) (by decide) (by decide)
    (by decide)

/-- Claim C10: whenever the usage gate passes and a later gate (NSFW or
permission) then fails, `composeInhibitors` returns `false` carrying
exactly the usage state written by the usage gate; and the write persists
in every allowing branch of `allowUsage` — a fresh scope keeps its new
`(1, now)` entry, an in-window non-full bucket keeps its increment
`(bucket + 1, now)`, and an elapsed window keeps its reset `(1, now)` —
so the blocked invocation still consumed one use of the rate limit. -/
theorem c10_usage_consumed (c cP : CommandGates) (limit : LimitOptions)
    (id : String) (t : Nat) (s sNew sInc sRst : UsageState)
    (bucket time bucket2 time2 : Nat)
    (hsd : c.shouldDispatch ≠ some false)
    (hn : allowNSFW c = false)
    (hsd2 : cP.shouldDispatch ≠ some false)
    (hn2 : allowNSFW cP = true) (hp2 : allowPerm cP = false)
    (hu : (allowUsage limit id t s).1 = true)
    (h0 : limit.time ≠ 0)
    (hNew : getUsage sNew.usage id = none)
    (hInc : getUsage sInc.usage id = some (bucket, time))
    (hIncWin : ¬ limit.time < t - time)
    (hIncB : bucket ≠ limit.bucket)
    (hRst : getUsage sRst.usage id = some (bucket2, time2))
    (hRstWin : limit.time < t - time2) :
    ((composeInhibitors c limit id t s).1 = false
      ∧ (composeInhibitors c limit id t s).2.2 = (allowUsage limit id t s).2)
    ∧ ((composeInhibitors cP limit id t s).1 = false
      ∧ (composeInhibitors cP limit id t s).2.2 = (allowUsage limit id t s).2)
    ∧ getUsage (composeInhibitors c limit id t sNew).2.2.usage id =
        some (1, t)
    ∧ getUsage (composeInhibitors c limit id t sInc).2.2.usage id =
        some (bucket + 1, t)
    ∧ getUsage (composeInhibitors cP limit id t sRst).2.2.usage id =
        some (1, t) := by
  have keyN : ∀ s' : UsageState, (allowUsage limit id t s').1 = true →
      (composeInhibitors c limit id t s').1 = false
      ∧ (composeInhibitors c limit id t s').2.2 =
          (allowUsage limit id t s').2 := by
    intro s' hu'
    rcases hau : allowUsage limit id t s' with ⟨au, s1⟩
    rw [hau] at hu'
    have hau1 : au = true := hu'
    subst hau1
    unfold composeInhibitors
    rw [sdValue_true hsd, hau]
    simp [hn, hau]
  have keyP : ∀ s' : UsageState, (allowUsage limit id t s').1 = true →
      (composeInhibitors cP limit id t s').1 = false
      ∧ (composeInhibitors cP limit id t s').2.2 =
          (allowUsage limit id t s').2 := by
    intro s' hu'
    rcases hau : allowUsage limit id t s' with ⟨au, s1⟩
    rw [hau] at hu'
    have hau1 : au = true := hu'
    subst hau1
    unfold composeInhibitors
    rw [sdValue_true hsd2, hau]
    simp [hn2, hp2, hau]
  have hauNew : allowUsage limit id t sNew =
      (true, ⟨setUsage sNew.usage id (1, t), true⟩) := by
    unfold allowUsage
    simp only [if_neg h0, hNew]
    by_cases hsw : sNew.sweepInterval <;> simp [hsw]
  have hauInc : allowUsage limit id t sInc =
      (true, { sInc with usage := setUsage sInc.usage id (bucket + 1, t) }) := by
    unfold allowUsage
    simp only [if_neg h0, hInc, if_neg hIncWin, if_neg hIncB]
  have hauRst : allowUsage limit id t sRst =
      (true, { sRst with usage := setUsage sRst.usage id (1, t) }) := by
    unfold allowUsage
    simp only [if_neg h0, hRst, if_pos hRstWin]
  refine ⟨keyN s hu, keyP s hu, ?_, ?_, ?_⟩
  · rw [(keyN sNew (by rw [hauNew])).2, hauNew]
    exact getUsage_setUsage_self _ _ _
  · rw [(keyN sInc (by rw [hauInc])).2, hauInc]
    exact getUsage_setUsage_self _ _ _
  · rw [(keyP sRst (by rw [hauRst])).2, hauRst]
    exact getUsage_setUsage_self _ _ _

/-- Witness for `c10_usage_consumed`: blocked by the NSFW gate on a fresh
scope and on a half-consumed in-window bucket, and by the permission gate
on an expired full bucket; each write persists. -/
theorem c10_usage_consumed_witness :
    ((composeInhibitors ⟨none, true, false, ⟨false, 0⟩,
          ⟨fun _ => true, fun _ => true⟩⟩ ⟨2, 5000⟩ "u" 6000
          initialUsageState).1 = false
      ∧ (composeInhibitors ⟨none, true, false, ⟨false, 0⟩,
            ⟨fun _ => true, fun _ => true⟩⟩ ⟨2, 5000⟩ "u" 6000
            initialUsageState).2.2 =
          (allowUsage ⟨2, 5000⟩ "u" 6000 initialUsageState).2)
    ∧ ((composeInhibitors ⟨none, false, false, ⟨false, 0⟩,
            ⟨fun _ => false, fun _ => false⟩⟩ ⟨2, 5000⟩ "u" 6000
            initialUsageState).1 = false
      ∧ (composeInhibitors ⟨none, false, false, ⟨false, 0⟩,
            ⟨fun _ => false, fun _ => false⟩⟩ ⟨2, 5000⟩ "u" 6000
            initialUsageState).2.2 =
          (allowUsage ⟨2, 5000⟩ "u" 6000 initialUsageState).2)
    ∧ getUsage (composeInhibitors ⟨none, true, false, ⟨false, 0⟩,
          ⟨fun _ => true, fun _ => true⟩⟩ ⟨2, 5000⟩ "u" 6000
          initialUsageState).2.2.usage "u" = some (1, 6000)
    ∧ getUsage (composeInhibitors ⟨none, true, false, ⟨false, 0⟩,
          ⟨fun _ => true, fun _ => true⟩⟩ ⟨2, 5000⟩ "u" 6000
          ⟨[("u", (1, 5999))], true⟩).2.2.usage "u" = some (1 + 1, 6000)
    ∧ getUsage (composeInhibitors ⟨none, false, false, ⟨false, 0⟩,
          ⟨fun _ => false, fun _ => false⟩⟩ ⟨2, 5000⟩ "u" 6000
          ⟨[("u", (2, 0))], true⟩).2.2.usage "u" = some (1, 6000) :=
  c10_usage_consumed
    ⟨none, true, false, ⟨false, 0⟩, ⟨fun _ => true, fun _ => true⟩⟩
    ⟨none, false, false, ⟨false, 0⟩, ⟨fun _ => false, fun _ => false⟩⟩
    ⟨2, 5000⟩ "u" 6000 initialUsageState initialUsageState
    ⟨[("u", (1, 5999))], true⟩ ⟨[("u", (2, 0))], true⟩ 1 5999 2 0
    (by decide) (by decide) (by decide) (by decide) (by decide) (by decide)
    (by decide) (by decide) (by decide) (by decide) (by decide) (by decide)
    (by decide)

/-! ### Lemmas on subcommand instantiation -/

theorem instantiateSubcommands_ok_valid :
    ∀ (l : List SubcommandClass) (i : Nat) (subs : List SubcommandClass),
      (instantiateSubcommands l i).2 = Except.ok subs →
      ∀ cls ∈ l, cls.extendsCommand = true ∧ cls.isSubcommand = true := by
  intro l
  induction l with
  | nil => intro i subs _ cls hcls; cases hcls
  | cons hd tl ih =>
    intro i subs h cls hcls
    by_cases he : hd.extendsCommand
    · by_cases hs : hd.isSubcommand
      · rcases List.mem_cons.mp hcls with hcls | hcls
        · subst hcls; exact ⟨he, hs⟩
        · rcases hr : instantiateSubcommands tl (i + 1) with ⟨tr, res⟩
          simp only [instantiateSubcommands, he, hs, Bool.not_true, hr] at h
          cases res with
          | error e => simp [Except.map] at h
          | ok l' =>
            exact ih (i + 1) l' (by rw [hr]) cls hcls
      · exfalso
        have hs' : hd.isSubcommand = false := by simpa using hs
        simp [instantiateSubcommands, he, hs'] at h
    · exfalso
      have he' : hd.extendsCommand = false := by simpa using he
      simp [instantiateSubcommands, he'] at h

theorem instantiateSubcommands_error_msg :
    ∀ (l : List SubcommandClass) (i : Nat) (e : NebulaError),
      (instantiateSubcommands l i).2 = Except.error e →
      e.message = "subcommands must inherit the Command structure"
      ∨ e.message = "subcommands must have isSubcommand set to true" := by
  intro l
  induction l with
  | nil => intro i e h; simp [instantiateSubcommands] at h
  | cons hd tl ih =>
    intro i e h
    by_cases he : hd.extendsCommand
    · by_cases hs : hd.isSubcommand
      · rcases hr : instantiateSubcommands tl (i + 1) with ⟨tr, res⟩
        simp only [instantiateSubcommands, he, hs, Bool.not_true, hr] at h
        cases res with
        | error e' =>
          have : e' = e := by simpa [Except.map] using h
          exact this ▸ ih (i + 1) e' (by rw [hr])
        | ok l' => simp [Except.map] at h
      · simp only [instantiateSubcommands, he, hs, Bool.not_true,
          Bool.not_false] at h
        cases h
        exact Or.inr rfl
    · simp only [instantiateSubcommands, he, Bool.not_false] at h
      cases h
      exact Or.inl rfl

theorem instantiateSubcommands_error_of_bad {l : List SubcommandClass}
    {cls : SubcommandClass} (hmem : cls ∈ l)
    (hbad : cls.extendsCommand = false ∨ cls.isSubcommand = false) (i : Nat) :
    ∃ e, (instantiateSubcommands l i).2 = Except.error e
      ∧ (e.message = "subcommands must inherit the Command structure"
        ∨ e.message = "subcommands must have isSubcommand set to true") := by
  rcases hres : (instantiateSubcommands l i).2 with e | subs
  · exact ⟨e, rfl, instantiateSubcommands_error_msg l i e hres⟩
  · have := instantiateSubcommands_ok_valid l i subs hres cls hmem
    rcases hbad with hb | hb <;> rw [hb] at this <;> simp at this

/-- Claim C6: constructing a Command whose declared subcommand list
contains a class that does not inherit from Command, or whose instance
does not carry `isSubcommand = true`, makes the parent constructor return
a `NebulaError` synchronously (one of the two subcommand configuration
messages) — no message ever enters the picture. -/
theorem c6_bad_subcommand_throws (options : CommandOptionsIn)
    (cmds : List SubcommandClass) (cls : SubcommandClass)
    (hname : options.name ≠ none)
    (hscope : limitScopeInvalid options.limit = false)
    (hbucket : limitBucketInvalid options.limit = false)
    (htmiss : limitTimeMissing options.limit = false)
    (htinv : limitTimeInvalid options.limit = false)
    (hperm : permissionLevelMissing options.permission = false)
    (hsub : options.subcommands = some cmds)
    (hmem : cls ∈ cmds)
    (hbad : cls.extendsCommand = false ∨ cls.isSubcommand = false) :
    ∃ e, commandConstructor options = Except.error e
      ∧ (e.message = "subcommands must inherit the Command structure"
        ∨ e.message = "subcommands must have isSubcommand set to true") := by
  obtain ⟨e, he, hmsg⟩ := instantiateSubcommands_error_of_bad hmem hbad 0
  refine ⟨e, ?_, hmsg⟩
  have hne : cmds ≠ [] := List.ne_nil_of_mem hmem
  unfold commandConstructor
  rw [if_neg hname]
  simp only [hscope, hbucket, htmiss, htinv, hperm, hsub, Option.getD_some,
    Bool.false_eq_true, if_false]
  rw [if_neg (by simpa using hne)]
  rw [he]

/-- Witness for `c6_bad_subcommand_throws`: a parent declaring one
subcommand class that inherits from Command but lacks the flag. -/
theorem c6_bad_subcommand_throws_witness :
    ∃ e, commandConstructor
        ⟨some "parent", none, some [⟨true, false⟩], none⟩ = Except.error e
      ∧ (e.message = "subcommands must inherit the Command structure"
        ∨ e.message = "subcommands must have isSubcommand set to true") :=
  c6_bad_subcommand_throws ⟨some "parent", none, some [⟨true, false⟩], none⟩
    [⟨true, false⟩] ⟨true, false⟩ (by decide) rfl rfl rfl rfl rfl rfl
    (by decide) (Or.inr rfl)

theorem instantiateSubcommands_valid_spec :
    ∀ (l : List SubcommandClass),
      (∀ cls ∈ l, cls.extendsCommand = true ∧ cls.isSubcommand = true) →
      ∀ k, instantiateSubcommands l k =
        ((List.range' k l.length).bind (fun i => [i, i]), Except.ok l) := by
  intro l
  induction l with
  | nil => intro _ k; simp [instantiateSubcommands]
  | cons hd tl ih =>
    intro h k
    have hhd := h hd (List.mem_cons_self _ _)
    have htl := fun cls hc => h cls (List.mem_cons_of_mem _ hc)
    simp only [instantiateSubcommands, hhd.1, hhd.2, Bool.not_true,
      ih htl (k + 1)]
    simp [List.range'_succ, Except.map]

theorem instantiateSubcommands_count {l : List SubcommandClass}
    (h : ∀ cls ∈ l, cls.extendsCommand = true ∧ cls.isSubcommand = true) :
    ∀ k j, (instantiateSubcommands l k).1.count j =
      if k ≤ j ∧ j < k + l.length then 2 else 0 := by
  induction l with
  | nil =>
    intro k j
    have h0 : (instantiateSubcommands [] k).1 = [] := rfl
    rw [h0]
    simp only [List.count_nil, List.length_nil, Nat.add_zero]
    split_ifs <;> omega
  | cons hd tl ih =>
    intro k j
    have hhd := h hd (List.mem_cons_self _ _)
    have htl := fun cls hc => h cls (List.mem_cons_of_mem _ hc)
    rcases hr : instantiateSubcommands tl (k + 1) with ⟨tr, res⟩
    have hstep : (instantiateSubcommands (hd :: tl) k).1 = k :: k :: tr := by
      simp [instantiateSubcommands, hhd.1, hhd.2, hr]
    rw [hstep]
    have htr : tr.count j =
        if k + 1 ≤ j ∧ j < k + 1 + tl.length then 2 else 0 := by
      have hx := ih htl (k + 1) j
      rw [hr] at hx
      exact hx
    by_cases hjk : j = k
    · have hbeq : (k == j) = true := by simp [hjk]
      simp only [List.count_cons, htr, List.length_cons]
      rw [if_pos hbeq,
        if_neg (show ¬(k + 1 ≤ j ∧ j < k + 1 + tl.length) by omega),
        if_pos (show k ≤ j ∧ j < k + (tl.length + 1) by omega)]
    · have hbeq : ¬ (k == j) = true := by
        simp only [beq_iff_eq]
        exact fun h' => hjk h'.symm
      simp only [List.count_cons, htr, List.length_cons]
      rw [if_neg hbeq]
      by_cases hcond : k + 1 ≤ j ∧ j < k + 1 + tl.length
      · rw [if_pos hcond,
          if_pos (show k ≤ j ∧ j < k + (tl.length + 1) by omega)]
      · rw [if_neg hcond,
          if_neg (show ¬(k ≤ j ∧ j < k + (tl.length + 1)) by omega)]

/-- Claim C7: when every declared subcommand class is valid, the parent's
construction performs the constructor call of the class at each index
exactly twice — the trace is `[0, 0, 1, 1, …]` — and stores one instance
per class. -/
theorem c7_double_instantiation (l : List SubcommandClass)
    (h : ∀ cls ∈ l, cls.extendsCommand = true ∧ cls.isSubcommand = true) :
    (instantiateSubcommands l 0).1 =
      (List.range l.length).bind (fun i => [i, i])
    ∧ (∀ i, i < l.length → (instantiateSubcommands l 0).1.count i = 2)
    ∧ (instantiateSubcommands l 0).2 = Except.ok l := by
  have hspec := instantiateSubcommands_valid_spec l h 0
  refine ⟨?_, ?_, ?_⟩
  · rw [hspec]
    simp [List.range_eq_range']
  · intro i hi
    rw [instantiateSubcommands_count h 0 i]
    simp [hi]
  · rw [hspec]

/-- Witness for `c7_double_instantiation` on two valid subcommand
classes. -/
theorem c7_double_instantiation_witness :
    (instantiateSubcommands [⟨true, true⟩, ⟨true, true⟩] 0).1 =
      (List.range ([(⟨true, true⟩ : SubcommandClass), ⟨true, true⟩].length)).bind
        (fun i => [i, i])
    ∧ (∀ i, i < [(⟨true, true⟩ : SubcommandClass), ⟨true, true⟩].length →
        (instantiateSubcommands [⟨true, true⟩, ⟨true, true⟩] 0).1.count i = 2)
    ∧ (instantiateSubcommands [⟨true, true⟩, ⟨true, true⟩] 0).2 =
        Except.ok [⟨true, true⟩, ⟨true, true⟩] :=
  c7_double_instantiation [⟨true, true⟩, ⟨true, true⟩] (by decide)

/-! ### Lemmas on the flat validator's coercion pass -/

theorem coercePass_append (values : List String) :
    ∀ (pre rest : List (String × FieldValidator)) (i : Nat)
      (store : ValueStore),
      (∀ j kv, pre.get? j = some kv →
        ∃ raw c, values.get? (i + j) = some raw ∧ kv.2.coerce raw = some c) →
      ∃ store2, coercePass values (pre ++ rest) i store =
        coercePass values rest (i + pre.length) store2 := by
  intro pre
  induction pre with
  | nil =>
    intro rest i store _
    exact ⟨store, by simp⟩
  | cons hd tl ih =>
    intro rest i store hpre
    obtain ⟨key, v⟩ := hd
    obtain ⟨raw, c, hraw, hc⟩ := hpre 0 (key, v) rfl
    have hraw' : values.get? i = some raw := by simpa using hraw
    obtain ⟨store2, heq⟩ :=
      ih rest (i + 1) (setStore store key ⟨c, v.type, raw⟩)
        (fun j kv hkv => by
          obtain ⟨raw', c', h1, h2⟩ := hpre (j + 1) kv (by simpa using hkv)
          exact ⟨raw', c',
            by rw [show i + 1 + j = i + (j + 1) by omega]; exact h1, h2⟩)
    refine ⟨store2, ?_⟩
    have hc' : v.coerce raw = some c := hc
    have hstep : coercePass values (((key, v) :: tl) ++ rest) i store =
        coercePass values (tl ++ rest) (i + 1)
          (setStore store key ⟨c, v.type, raw⟩) := by
      simp only [List.cons_append, coercePass, hraw', hc']
      rfl
    rw [hstep, heq, show i + 1 + tl.length = i + (tl.length + 1) by omega]
    rfl

/-- A string-typed non-optional field validator whose coercion is the
identity, as produced by `Validator.string()`. -/
def strTokenValidator : FieldValidator :=
  ⟨"string", false, fun s => some (Primitive.str s), []⟩

/-- An optional string-typed field validator. -/
def optTokenValidator : FieldValidator :=
  ⟨"string", true, fun s => some (Primitive.str s), []⟩

/-- A number-typed non-optional field validator whose coercion parses the
token as a number, as produced by `Validator.number()`. -/
def numTokenValidator : FieldValidator :=
  ⟨"number", false, fun s => (s.toInt?).map Primitive.num, []⟩

/-- Claim C2 counterexample: on a schema with one non-optional number
field and no tokens, `Validator.validate` returns one violation whose kind
is `"number"` — the field's schema type — not `"required"`; and the
claim's "some non-optional field" reading also fails: when an optional
field with a missing token precedes the non-optional missing field, the
call returns `null` for the optional field instead of any error. -/
theorem c2_counterexample :
    Validator.validate ⟨true, true⟩ [] [("n", numTokenValidator)] =
      [("n", FieldResult.errs [⟨none, "n", "number"⟩])]
    ∧ "number" ≠ "required"
    ∧ Validator.validate ⟨true, true⟩ []
        [("a", optTokenValidator), ("n", numTokenValidator)] =
      [("a", FieldResult.val none)] := by decide

/-- Claim C2 (amended): when the first field (in declaration order) whose
token is missing or fails coercion is a missing non-optional field, the
call returns an error object keyed by exactly that field, holding exactly
one violation, whose kind is the field's declared schema type (the same
tag a coercion failure produces) rather than `required`, with an absent
raw value. -/
theorem c2_missing_required_amended (opts : ValidatorOptions)
    (values : List String) (pre post : List (String × FieldValidator))
    (key : String) (v : FieldValidator)
    (hpre : ∀ j kv, pre.get? j = some kv →
      ∃ raw c, values.get? j = some raw ∧ kv.2.coerce raw = some c)
    (hmiss : values.get? pre.length = none)
    (hreq : v.optional = false) :
    Validator.validate opts values (pre ++ (key, v) :: post) =
      [(key, FieldResult.errs [⟨none, key, v.type⟩])] := by
  obtain ⟨store2, heq⟩ := coercePass_append values pre ((key, v) :: post) 0 []
    (fun j kv h => by simpa using hpre j kv h)
  unfold Validator.validate
  rw [heq]
  simp only [Nat.zero_add, coercePass, hmiss, hreq, Bool.not_false]
  rfl

/-- Witness for `c2_missing_required_amended`: a present string field
followed by a missing required number field, with a further declared field
behind it. -/
theorem c2_missing_required_amended_witness :
    Validator.validate ⟨true, true⟩ ["x"]
      ([("a", strTokenValidator)] ++
        ("n", numTokenValidator) :: [("b", strTokenValidator)]) =
      [("n", FieldResult.errs [⟨none, "n", "number"⟩])] :=
  c2_missing_required_amended ⟨true, true⟩ ["x"] [("a", strTokenValidator)]
    [("b", strTokenValidator)] "n" numTokenValidator
    (by
      intro j kv h
      cases j with
      | zero =>
        cases h
        exact ⟨"x", Primitive.str "x", rfl, rfl⟩
      | succ j => cases h)
    rfl rfl

/-- Claim C3: when the first field (in declaration order) whose raw token
is missing is optional — all earlier fields having present, coercible
tokens — `Validator.validate` returns immediately with an object mapping
only that field to `null`: no later field is reached and no rule chain
runs. -/
theorem c3_optional_early_return (opts : ValidatorOptions)
    (values : List String) (pre post : List (String × FieldValidator))
    (key : String) (v : FieldValidator)
    (hpre : ∀ j kv, pre.get? j = some kv →
      ∃ raw c, values.get? j = some raw ∧ kv.2.coerce raw = some c)
    (hmiss : values.get? pre.length = none)
    (hopt : v.optional = true) :
    Validator.validate opts values (pre ++ (key, v) :: post) =
      [(key, FieldResult.val none)] := by
  obtain ⟨store2, heq⟩ := coercePass_append values pre ((key, v) :: post) 0 []
    (fun j kv h => by simpa using hpre j kv h)
  unfold Validator.validate
  rw [heq]
  simp only [Nat.zero_add, coercePass, hmiss, hopt, Bool.not_true]
  rfl

/-- Witness for `c3_optional_early_return`: a present string field, then a
missing optional field, then a declared number field that is never
reached. -/
theorem c3_optional_early_return_witness :
    Validator.validate ⟨true, true⟩ ["x"]
      ([("a", strTokenValidator)] ++
        ("b", optTokenValidator) :: [("c", numTokenValidator)]) =
      [("b", FieldResult.val none)] :=
  c3_optional_early_return ⟨true, true⟩ ["x"] [("a", strTokenValidator)]
    [("c", numTokenValidator)] "b" optTokenValidator
    (by
      intro j kv h
      cases j with
      | zero =>
        cases h
        exact ⟨"x", Primitive.str "x", rfl, rfl⟩
      | succ j => cases h)
    rfl rfl

/-! ### Lemmas on the array schema's element loop -/

theorem validate_pass_errors (s : SchemaBase) (value : Option JSValue)
    (ae : Bool) (path : Option String)
    (h : (s.validate value ae path).pass = true) :
    (s.validate value ae path).errors = [] := by
  unfold SchemaBase.validate at h ⊢
  cases value with
  | none =>
    by_cases ho : s.optional <;> simp [ho] at h ⊢
  | some v =>
    rcases hc : s.coerce v with _ | c
    · simp [hc] at h
    · simp only [hc] at h ⊢
      by_cases hch : s.check c
      · simp only [hch, Bool.not_true, if_neg] at h ⊢
        simp at h ⊢
        exact h
      · have hch' : s.check c = false := by simpa using hch
        simp [hch'] at h

/-- Concatenated per-element error lists of the inner schema over the
elements from index `i`, each at its child path. -/
def elemErrors (inner : SchemaBase) (path : Option String) :
    List JSValue → Nat → List SchemaError
  | [], _ => []
  | x :: rest, i =>
    (inner.validate (some x) false (some (childPath path i))).errors ++
      elemErrors inner path rest (i + 1)

/-- Whether every element from index `i` passes the inner schema at its
child path. -/
def elemsPass (inner : SchemaBase) (ae : Bool) (path : Option String) :
    List JSValue → Nat → Bool
  | [], _ => true
  | x :: rest, i =>
    (inner.validate (some x) ae (some (childPath path i))).pass &&
      elemsPass inner ae path rest (i + 1)

theorem validateItems_collect (inner : SchemaBase) (path : Option String) :
    ∀ (xs : List JSValue) (i : Nat) (errs : List SchemaError) (pass : Bool),
      validateItems inner false path xs i errs pass =
        (errs ++ elemErrors inner path xs i,
          pass && elemsPass inner false path xs i) := by
  intro xs
  induction xs with
  | nil => intro i errs pass; simp [validateItems, elemErrors, elemsPass]
  | cons x rest ih =>
    intro i errs pass
    rcases hp : (inner.validate (some x) false
        (some (childPath path i))).pass with _ | _
    · have hstep : validateItems inner false path (x :: rest) i errs pass =
          validateItems inner false path rest (i + 1)
            (errs ++ (inner.validate (some x) false
              (some (childPath path i))).errors) false := by
        simp [validateItems, hp]
      rw [hstep, ih]
      simp [elemErrors, elemsPass, hp, List.append_assoc]
    · have hstep : validateItems inner false path (x :: rest) i errs pass =
          validateItems inner false path rest (i + 1)
            (errs ++ (inner.validate (some x) false
              (some (childPath path i))).errors) pass := by
        simp [validateItems, hp]
      rw [hstep, ih]
      simp [elemErrors, elemsPass, hp, List.append_assoc]

theorem validateItems_abort (inner : SchemaBase) (path : Option String) :
    ∀ (xs : List JSValue) (i : Nat) (errs : List SchemaError) (k : Nat)
      (xk : JSValue),
      (∀ j, j < k → ∀ xj, xs.get? j = some xj →
        (inner.validate (some xj) true
          (some (childPath path (i + j)))).pass = true) →
      xs.get? k = some xk →
      (inner.validate (some xk) true
        (some (childPath path (i + k)))).pass = false →
      validateItems inner true path xs i errs true =
        (errs ++ (inner.validate (some xk) true
          (some (childPath path (i + k)))).errors, false) := by
  intro xs
  induction xs with
  | nil => intro i errs k xk _ hk; cases hk
  | cons x rest ih =>
    intro i errs k xk hpass hk hfail
    cases k with
    | zero =>
      cases hk
      rw [Nat.add_zero] at hfail ⊢
      simp [validateItems, hfail]
    | succ k' =>
      have hx : (inner.validate (some x) true
          (some (childPath path i))).pass = true := by
        have := hpass 0 (Nat.succ_pos k') x rfl
        simpa using this
      have hxe := validate_pass_errors inner (some x) true
        (some (childPath path i)) hx
      simp only [validateItems, hx, Bool.not_true]
      rw [if_neg (by simp), hxe, List.append_nil]
      have hrec := ih (i + 1) errs k' xk
        (fun j hj xj hxj => by
          have := hpass (j + 1) (Nat.succ_lt_succ hj) xj (by simpa using hxj)
          rw [show i + 1 + j = i + (j + 1) by omega]
          exact this)
        (by simpa using hk)
        (by rw [show i + 1 + k' = i + (k' + 1) by omega]; exact hfail)
      rw [hrec, show i + 1 + k' = i + (k' + 1) by omega]

/-- Decimal value of a digit character, `none` on a non-digit. -/
def digitVal (c : Char) : Option Nat :=
  if c.isDigit then some (c.toNat - '0'.toNat) else none

/-- Parses a digit list into a number, `none` when empty or on a
non-digit. -/
def parseNatList : List Char → Option Nat → Option Nat
  | [], acc => acc
  | c :: cs, acc =>
    match digitVal c, acc with
    | some d, some n => parseNatList cs (some (n * 10 + d))
    | some d, none => parseNatList cs (some d)
    | none, _ => none

/-- Parses a decimal integer token, with an optional leading minus. -/
def parseNumToken (s : String) : Option Int :=
  match s.data with
  | '-' :: rest => (parseNatList rest none).map (fun n => -(n : Int))
  | _ => (parseNatList s.data none).map (fun n => (n : Int))

/-- Modelled from the spec: a number schema of the `validator` directory —
type tag `"number"`, string-to-number coercion, runtime number check, no
rules — the inner schema of the §8 example. -/
def numberSchemaEx : SchemaBase :=
  ⟨"number", false,
    fun v =>
      match v with
      | JSValue.num n => some (JSValue.num n)
      | JSValue.str s => (parseNumToken s).map JSValue.num
      | _ => none,
    fun v => match v with | JSValue.num _ => true | _ => false,
    []⟩

/-- The array schema of the §8 example: no array-level rules, inner number
schema. -/
def arrayNumEx : ArraySchemaT := ⟨false, [], some numberSchemaEx⟩

/-- Claim C5: with an inner schema and a passing base validation,
`ArraySchema.validate` validates each element at child path `i` (or
`path.i`): with `shouldAbortEarly` off it accumulates every element's
violations and passes iff every element passes; with it on it returns
`pass = false` carrying exactly the first failing element's violations;
and on `[1, 2, "x"]` with an inner number schema and `abortEarly = false`
it returns `pass = false` with one violation at path `"2"`. -/
theorem c5_array_element_validation (a : ArraySchemaT) (inner : SchemaBase)
    (xs : List JSValue) (path : Option String) (k : Nat) (xk : JSValue)
    (hinner : a.inner = some inner)
    (hbase : runSchemaRules "array" (JSValue.arr xs) false path a.rules = [])
    (hbaseT : runSchemaRules "array" (JSValue.arr xs) true path a.rules = [])
    (hpass : ∀ j, j < k → ∀ xj, xs.get? j = some xj →
      (inner.validate (some xj) true (some (childPath path j))).pass = true)
    (hk : xs.get? k = some xk)
    (hfail : (inner.validate (some xk) true
      (some (childPath path k))).pass = false) :
    a.validate (some (JSValue.arr xs)) false path =
      ⟨if elemsPass inner false path xs 0 then some (JSValue.arr xs)
        else none,
        elemErrors inner path xs 0, elemsPass inner false path xs 0⟩
    ∧ a.validate (some (JSValue.arr xs)) true path =
        ⟨none, (inner.validate (some xk) true
          (some (childPath path k))).errors, false⟩
    ∧ arrayNumEx.validate
        (some (JSValue.arr [JSValue.num 1, JSValue.num 2, JSValue.str "x"]))
        false none =
      ⟨none, [⟨"number", some "2"⟩], false⟩ := by
  have hbaseR : a.base.validate (some (JSValue.arr xs)) false path =
      ⟨some (JSValue.arr xs), [], true⟩ := by
    simp only [ArraySchemaT.base, SchemaBase.validate, hbase]
    rfl
  have hbaseRT : a.base.validate (some (JSValue.arr xs)) true path =
      ⟨some (JSValue.arr xs), [], true⟩ := by
    simp only [ArraySchemaT.base, SchemaBase.validate, hbaseT]
    rfl
  refine ⟨?_, ?_, by rfl⟩
  · rcases hep : elemsPass inner false path xs 0 with _ | _ <;>
      simp [ArraySchemaT.validate, hbaseR, hinner,
        validateItems_collect inner path xs 0 [] true, hep]
  · simp [ArraySchemaT.validate, hbaseRT, hinner,
      validateItems_abort inner path xs 0 [] k xk
        (fun j hj xj hxj => by simpa using hpass j hj xj hxj)
        hk (by simpa using hfail)]

/-- Witness for `c5_array_element_validation`: the inner number schema on
`[1, "y", 3]`, whose first failing element is index 1. -/
theorem c5_array_element_validation_witness :
    arrayNumEx.validate
        (some (JSValue.arr [JSValue.num 1, JSValue.str "y", JSValue.num 3]))
        false none =
      ⟨if elemsPass numberSchemaEx false none
          [JSValue.num 1, JSValue.str "y", JSValue.num 3] 0 then
          some (JSValue.arr [JSValue.num 1, JSValue.str "y", JSValue.num 3])
        else none,
        elemErrors numberSchemaEx none
          [JSValue.num 1, JSValue.str "y", JSValue.num 3] 0,
        elemsPass numberSchemaEx false none
          [JSValue.num 1, JSValue.str "y", JSValue.num 3] 0⟩
    ∧ arrayNumEx.validate
        (some (JSValue.arr [JSValue.num 1, JSValue.str "y", JSValue.num 3]))
        true none =
      ⟨none, (numberSchemaEx.validate (some (JSValue.str "y")) true
        (some (childPath none 1))).errors, false⟩
    ∧ arrayNumEx.validate
        (some (JSValue.arr [JSValue.num 1, JSValue.num 2, JSValue.str "x"]))
        false none =
      ⟨none, [⟨"number", some "2"⟩], false⟩ :=
  c5_array_element_validation arrayNumEx numberSchemaEx
    [JSValue.num 1, JSValue.str "y", JSValue.num 3] none 1 (JSValue.str "y")
    rfl rfl rfl
    (by
      intro j hj xj hxj
      have hj0 : j = 0 := by omega
      subst hj0
      cases hxj
      rfl)
    rfl rfl

end Nebula
